import Mathlib

/-!
Verification development for the go-sampler repository (OpenTelemetry
composable-sampler prototype).  The Go sources `tracestate.go` and
`sampler.go` are embedded shallowly below:

* Go strings are modelled as `List Char`; tracestate content is ASCII, so
  one `Char` stands for one Go byte and Go byte indices coincide with list
  indices.
* Go slice expressions `s[lo:hi]` panic when `lo > hi` or `hi > len(s)`;
  partiality from such panics (and from calling a nil function value) is
  modelled with `Option`: a `none` result stands for a Go runtime panic.
* `trace.TraceState` is modelled as an ordered list of key/value entries
  with the `Get` / `Len` / `Delete` / `Insert` operations used by the
  source.  (`Insert` places the entry at the front, as in the OTel SDK;
  member validation is elided because every value inserted on the paths
  the claims exercise is a valid tracestate member.)
* The machine integers involved (`int64`, `uint64`) never overflow on the
  paths embedded here — all parsed values are < 2^56 — so they are
  modelled by `Nat` / `Int`, with the overflow guard of `strconv.ParseUint`
  made explicit in `parseHexCore`.
-/

namespace GoSampler

/-- A tracestate key/value entry (both sides ASCII strings). -/
abbrev Entry := List Char × List Char

/-- Model of `trace.TraceState`: the ordered member list. -/
structure TraceState where
  entries : List Entry
deriving DecidableEq

/-- Model of `trace.TraceState.Get`: value of the first entry with the key,
or the empty string when absent. -/
def TraceState.get (ts : TraceState) (k : List Char) : List Char :=
  match ts.entries.find? (fun e => e.1 == k) with
  | some e => e.2
  | none => []

/-- Model of `trace.TraceState.Len`. -/
def TraceState.len (ts : TraceState) : Nat := ts.entries.length

/-- Model of `trace.TraceState.Delete`: remove the entry with the key. -/
def TraceState.delete (ts : TraceState) (k : List Char) : TraceState :=
  ⟨ts.entries.filter (fun e => !(e.1 == k))⟩

/-- Model of `trace.TraceState.Insert`: remove any entry with the key, then
place the new entry at the front of the list.  Member validation is
elided: on every path exercised by the claims below the inserted value is
a nonempty valid tracestate member (the SDK would reject an empty value,
which `combineTracestate` can produce only when called with a negative
update threshold, a call no claim settled here makes). -/
def TraceState.insert (ts : TraceState) (k v : List Char) : TraceState :=
  ⟨(k, v) :: (ts.delete k).entries⟩

/-- The vendor tag used by the sampler, `"ot"`. -/
def otKey : List Char := ['o', 't']

/-- Go `s[lo:hi]`: `none` models the slice-bounds panic. -/
def goSlice (s : List Char) (lo hi : Nat) : Option (List Char) :=
  if lo ≤ hi ∧ hi ≤ s.length then some ((s.take hi).drop lo) else none

/-- Go `strings.Index s sub`: index of the first occurrence of `sub` in
`s`, `none` when absent (Go returns -1). -/
def strIndex : List Char → List Char → Option Nat
  | s, sub =>
    if sub.isPrefixOf s then some 0
    else
      match s with
      | [] => none
      | _ :: t => (strIndex t sub).map (· + 1)

/-- Hex digit value as computed by `strconv.ParseUint` with base 16
(decimal digits, lowercase and uppercase letters up to `f`). -/
def hexDigitVal (c : Char) : Option Nat :=
  let n := c.toNat
  if 48 ≤ n ∧ n ≤ 57 then some (n - 48)
  else if 97 ≤ n ∧ n ≤ 102 then some (n - 87)
  else if 65 ≤ n ∧ n ≤ 70 then some (n - 55)
  else none

/-- Digit loop of `strconv.ParseUint(_, 16, 64)`.  The accumulator bound
2^60 is Go's overflow cutoff for base 16 (`maxUint64/16 + 1`); it is never
hit by the call sites embedded here, whose inputs have at most 14 digits. -/
def parseHexCore : Nat → List Char → Option Nat
  | acc, [] => some acc
  | acc, c :: rest =>
    match hexDigitVal c with
    | none => none
    | some d => if acc < 2 ^ 60 then parseHexCore (acc * 16 + d) rest else none

/-- `strconv.ParseUint(val, 16, 64)`: rejects the empty string, then runs
the digit loop. -/
def parseHexUint64 (val : List Char) : Option Nat :=
  if val.isEmpty then none else parseHexCore 0 val

/-- `randomnessSearchKey` from `tracestate.go`: `";rv:"`. -/
def randomnessSearchKey : List Char := [';', 'r', 'v', ':']

/-- `thresholdSearchKey` from `tracestate.go`: `";th:"`. -/
def thresholdSearchKey : List Char := [';', 't', 'h', ':']

/-- Embedding of `tracestateHasOTelField` (tracestate.go lines 22-36).
The outer `Option` models the Go slice panic: the source computes
`high := strings.IndexByte(otts[low:], ';')` — an index relative to
`otts[low:]` — and then slices `otts[low:high]` with the relative index
used as an absolute one, which truncates the value and panics whenever
`high < low`.  The embedding reproduces both behaviors exactly. -/
def tracestateHasOTelField (otts search : List Char) : Option (List Char × Bool) :=
  match (if (search.drop 1).isPrefixOf otts then some 3
         else match strIndex otts search with
              | some pos => if 0 < pos then some (pos + 4) else none
              | none => none) with
  | none => some ([], false)
  | some low =>
      match (otts.drop low).findIdx? (· == ';') with
      | none => (goSlice otts low otts.length).map (fun v => (v, true))
      | some high => (goSlice otts low high).map (fun v => (v, true))

/-- Embedding of `tracestateHasRandomness` (tracestate.go lines 39-54).
`none` models a panic inside the field lookup; `some (0, false)` covers
both the absent-field case and the recoverable parse errors reported via
`otel.Handle`. -/
def tracestateHasRandomness (otts : List Char) : Option (Int × Bool) :=
  match tracestateHasOTelField otts randomnessSearchKey with
  | none => none
  | some (val, has) =>
    if has then
      if val.length ≠ 14 then some (0, false)
      else
        match parseHexUint64 val with
        | none => some (0, false)
        | some rv => some ((rv : Int), true)
    else some (0, false)

/-- Embedding of `tracestateHasThreshold` (tracestate.go lines 57-74):
1-to-14 hex digits, then right-padded with zero bits
(`th <<= (14 - len(val)) * 4`). -/
def tracestateHasThreshold (otts : List Char) : Option (Int × Bool) :=
  match tracestateHasOTelField otts thresholdSearchKey with
  | none => none
  | some (val, has) =>
    if has then
      if val.length = 0 ∨ 14 < val.length then some (0, false)
      else
        match parseHexUint64 val with
        | none => some (0, false)
        | some th => some (((th * 16 ^ (14 - val.length) : Nat) : Int), true)
    else some (0, false)

/-- Go `strings.TrimRight(s, "0")`: drop trailing `'0'` characters. -/
def trimRightZeros (s : List Char) : List Char :=
  (s.reverse.dropWhile (· == '0')).reverse

/-- The threshold text written by `combineTracestate` (tracestate.go lines
136-139): `strconv.FormatUint(t, 16)` with trailing zeros trimmed, with a
literal `"0"` prepended when the threshold is exactly zero.
`Nat.toDigits 16` matches `FormatUint`: minimal lowercase hex digits. -/
def encodeTh (t : Nat) : List Char :=
  (if t = 0 then ['0'] else []) ++ trimRightZeros (Nat.toDigits 16 t)

/-- One pass of the copy loop of `combineTracestate` (tracestate.go lines
91-129), written with explicit fuel so that it reduces definitionally.
Each iteration consumes at least two characters of `incoming`; the wrapper
`combineLoop` supplies `incoming.length + 1` units of fuel, which therefore
never runs out, so `none` means exactly the corrupt-fragment `cpos < 0`
exit of the source.  Faithfulness notes, traced from the source:
* `cpos` is the index of the first `':'` anywhere in `incoming`;
* in the final-pair branch the source assigns `incoming = ""` and only
  then `toWrite = incoming`, so the final pair contributes the empty
  string to the output (only the `';'` separator, when `out` is
  nonempty, survives);
* a pair whose key is exactly `"th"` is skipped. -/
def combineLoopF : Nat → List Char → List Char → Option (List Char)
  | 0, _, _ => none
  | fuel + 1, incoming, out =>
    if incoming = [] then some out
    else
      match incoming.findIdx? (· == ':') with
      | none => none
      | some cpos =>
        let thisKey := incoming.take cpos
        match (incoming.drop (cpos + 1)).findIdx? (· == ';') with
        | none =>
          if thisKey = ['t', 'h'] then some out
          else if out.length ≠ 0 then some (out ++ [';'])
          else some out
        | some spos =>
          let split := cpos + spos + 1
          let toWrite := incoming.take split
          let incoming1 := incoming.drop (split + 1)
          if thisKey = ['t', 'h'] then combineLoopF fuel incoming1 out
          else if out.length ≠ 0 then combineLoopF fuel incoming1 (out ++ [';'] ++ toWrite)
          else combineLoopF fuel incoming1 (out ++ toWrite)

/-- The copy loop of `combineTracestate` with sufficient fuel. -/
def combineLoop (incoming out : List Char) : Option (List Char) :=
  combineLoopF (incoming.length + 1) incoming out

/-- Embedding of `combineTracestate` (tracestate.go lines 78-146).  The
`Bool` in the result records whether the corrupt-fragment diagnostic
(`otel.Handle`) was emitted; in that case the source deletes the `"ot"`
entry and returns.  Otherwise the filtered fragment, with the canonical
threshold text appended when `updateThreshold ≥ 0`, is inserted under
`"ot"`. -/
def combineTracestate (original : TraceState) (updateThreshold : Int) :
    TraceState × Bool :=
  if original.len = 0 ∧ updateThreshold < 0 then (original, false)
  else
    match combineLoop (original.get otKey) [] with
    | none => (original.delete otKey, true)
    | some out0 =>
      if 0 ≤ updateThreshold then
        let out := out0 ++ (if out0.length ≠ 0 then [';', 't', 'h', ':'] else ['t', 'h', ':'])
            ++ encodeTh updateThreshold.toNat
        (original.insert otKey out, false)
      else (original.insert otKey out0, false)

/-! ## sampler.go: the composable-sampler decision core -/

/-- Modelled from the spec: the three threshold sentinels are declared in a
file of this repository that is not under `src/` (only their uses are).
The spec's data model fixes them: a `Threshold` is an integer in
`[0, 2^56]` where `0` means always select and `2^56` means never select,
and the no-known-threshold sentinel is negative, outside the valid range.
`NEVER_SAMPLE_THRESHOLD` is `2^56`. -/
def NEVER_SAMPLE_THRESHOLD : Int := 2 ^ 56

/-- Modelled from the spec: the always-select sentinel, `0`. -/
def ALWAYS_SAMPLE_THRESHOLD : Int := 0

/-- Modelled from the spec: the no-known-threshold sentinel, negative and
out of the valid range (the exact negative value is not observable in any
claim settled here). -/
def INVALID_THRESHOLD : Int := -1

/-- Model of `attribute.KeyValue` (contents irrelevant to the claims). -/
abbrev KeyValue := List Char × List Char

/-- Model of `SamplingDecision` (sampler.go lines 68-75). -/
inductive SamplingDecision where
  | Drop
  | RecordOnly
  | ExportOnly
  | RecordAndSample
deriving DecidableEq

/-- Model of `SamplingResult` (sampler.go lines 82-92). -/
structure SamplingResult where
  Decision : SamplingDecision
  Attributes : List KeyValue
  Tracestate : TraceState
deriving DecidableEq

/-- Model of `SamplingIntent` (sampler.go lines 152-159).  The deferred
producer fields `Attributes : AttributesFunc` and
`TraceState : TraceStateFunc` are Go function values that may be nil;
a producer is modelled by the value it would return, `none` standing for
nil. -/
structure SamplingIntent where
  Record : Bool
  Export : Bool
  Threshold : Int
  Attributes : Option (List KeyValue)
  TraceState : Option TraceState
deriving DecidableEq

/-- Embedding of `SamplingIntent.WouldSample` (sampler.go lines 164-166):
strict comparison of the intent threshold against the call's randomness
(`params.randomnessValue`, passed here directly). -/
def SamplingIntent.WouldSample (intent : SamplingIntent) (randomnessValue : Int) : Bool :=
  decide (intent.Threshold < randomnessValue)

/-- The `sampled` switch of `compositeSampler.ShouldSample` (sampler.go
lines 540-548): never-sentinel short-circuits to false, thresholds at or
below the always-sentinel short-circuit to true, otherwise `T ≤ R`. -/
def computeSampled (t rnd : Int) : Bool :=
  if t = NEVER_SAMPLE_THRESHOLD then false
  else if t ≤ ALWAYS_SAMPLE_THRESHOLD then true
  else decide (t ≤ rnd)

/-- The tail of `compositeSampler.ShouldSample` after the intent is
obtained (sampler.go lines 540-598): the `sampled` switch, the
unconditional `returnTracestate` selection (which invokes the intent's
`TraceState` producer whenever it is non-nil, before any branch is
chosen), and the decision switch.  The two `Nat` results count the
invocations of the `Attributes` and `TraceState` producers.  `none`
models the panic of the `RecordOnly` branch, which calls
`intent.Attributes()` without the nil guard present in the other
branches (sampler.go line 588). -/
def applyIntent (pscTraceState : TraceState) (parentThreshold rnd : Int)
    (intent : SamplingIntent) : Option (SamplingResult × Nat × Nat) :=
  let returnTs0 := match intent.TraceState with
    | some ts => ts
    | none => pscTraceState
  let tsCalls : Nat := match intent.TraceState with
    | some _ => 1
    | none => 0
  if computeSampled intent.Threshold rnd then
    some (⟨SamplingDecision.RecordAndSample,
           (match intent.Attributes with | some a => a | none => []),
           (if intent.Threshold ≠ parentThreshold then
              (combineTracestate returnTs0 intent.Threshold).1
            else returnTs0)⟩,
          (match intent.Attributes with | some _ => 1 | none => 0),
          tsCalls)
  else if intent.Export then
    some (⟨SamplingDecision.ExportOnly,
           (match intent.Attributes with | some a => a | none => []),
           (if intent.Threshold ≠ parentThreshold then
              (combineTracestate returnTs0 intent.Threshold).1
            else returnTs0)⟩,
          (match intent.Attributes with | some _ => 1 | none => 0),
          tsCalls)
  else if intent.Record then
    match intent.Attributes with
    | none => none
    | some a => some (⟨SamplingDecision.RecordOnly, a, returnTs0⟩, 1, tsCalls)
  else
    some (⟨SamplingDecision.Drop, [], returnTs0⟩, 0, tsCalls)

/-- The inherited-threshold resolution of `ShouldSample` (sampler.go lines
503-511): the parsed `th` value when found, else the invalid sentinel when
the parent is sampled, else the never sentinel.  `none` models a panic
inside the parse. -/
def resolveParentThreshold (otts : List Char) (parentSampled : Bool) : Option Int :=
  match tracestateHasThreshold otts with
  | none => none
  | some (t, has) =>
    some (if has then t
          else if parentSampled then INVALID_THRESHOLD
          else NEVER_SAMPLE_THRESHOLD)

/-- The randomness resolution of `ShouldSample` (sampler.go lines 513-528):
the parsed `rv` value when the fragment is nonempty and carries one, else
the low 56 bits of the big-endian interpretation of the second half of the
trace identifier. -/
def resolveRandomness (otts : List Char) (traceIdLow64 : Nat) : Option Int :=
  match (if otts ≠ [] then tracestateHasRandomness otts else some (0, false)) with
  | none => none
  | some (r, has) =>
    some (if has then r else ((traceIdLow64 % 2 ^ 56 : Nat) : Int))

/-- Model of the parent span context obtained by
`trace.SpanContextFromContext(params.ParentContext)`: the fields read by
`ShouldSample` are the trace state and the sampled flag. -/
structure SpanContext where
  traceState : TraceState
  sampled : Bool
deriving DecidableEq

/-- Model of `SamplingParameters` restricted to the data `ShouldSample`
reads: the parent span context and
`binary.BigEndian.Uint64(params.TraceID[8:16])`. -/
structure SamplingParameters where
  parentSpanContext : SpanContext
  traceIdLow64 : Nat
deriving DecidableEq

/-- Embedding of `compositeSampler.ShouldSample` (sampler.go lines
487-598).  Within a single call the configured composable sampler's
`GetSamplingIntent` sees fixed span parameters and the two values the
adapter computes — `parentThreshold` and `randomnessValue` — so its
behavior on this call is a function of those two values; quantifying over
`c` covers every composable sampler.  `none` models a panic (inside the
tracestate parse, or the nil `Attributes` call of the `RecordOnly`
branch). -/
def shouldSample (c : Int → Int → SamplingIntent) (params : SamplingParameters) :
    Option (SamplingResult × Nat × Nat) :=
  let otts := params.parentSpanContext.traceState.get otKey
  match resolveParentThreshold otts params.parentSpanContext.sampled with
  | none => none
  | some threshold =>
    match resolveRandomness otts params.traceIdLow64 with
    | none => none
    | some rnd =>
      applyIntent params.parentSpanContext.traceState threshold rnd (c threshold rnd)

/-! ## Helper lemmas -/

theorem hexDigitVal_le (c : Char) (d : Nat) (h : hexDigitVal c = some d) : d ≤ 15 := by
  simp only [hexDigitVal] at h
  split at h
  · simp only [Option.some.injEq] at h
    omega
  · split at h
    · simp only [Option.some.injEq] at h
      omega
    · split at h
      · simp only [Option.some.injEq] at h
        omega
      · exact absurd h (by simp)

theorem parseHexCore_lt (l : List Char) :
    ∀ acc v, parseHexCore acc l = some v → v < (acc + 1) * 16 ^ l.length := by
  induction l with
  | nil =>
    intro acc v h
    simp only [parseHexCore, Option.some.injEq] at h
    simp [← h]
  | cons c rest ih =>
    intro acc v h
    cases hd : hexDigitVal c with
    | none => simp [parseHexCore, hd] at h
    | some d =>
      simp only [parseHexCore, hd] at h
      split at h
      · have hb := ih (acc * 16 + d) v h
        have hd15 : d ≤ 15 := hexDigitVal_le c d hd
        have hstep : (acc * 16 + d + 1) * 16 ^ rest.length ≤ (acc + 1) * 16 ^ (rest.length + 1) := by
          have h1 : acc * 16 + d + 1 ≤ (acc + 1) * 16 := by omega
          calc (acc * 16 + d + 1) * 16 ^ rest.length
              ≤ (acc + 1) * 16 * 16 ^ rest.length := Nat.mul_le_mul_right _ h1
            _ = (acc + 1) * 16 ^ (rest.length + 1) := by ring
        simpa [List.length_cons] using lt_of_lt_of_le hb hstep
      · exact absurd h (by simp)

theorem parseHexUint64_lt (val : List Char) (v : Nat) (h : parseHexUint64 val = some v) :
    v < 16 ^ val.length := by
  unfold parseHexUint64 at h
  split at h
  · exact absurd h (by simp)
  · simpa using parseHexCore_lt val 0 v h

theorem tracestateHasThreshold_range (otts : List Char) (v : Int)
    (h : tracestateHasThreshold otts = some (v, true)) : 0 ≤ v ∧ v < 2 ^ 56 := by
  unfold tracestateHasThreshold at h
  cases hf : tracestateHasOTelField otts thresholdSearchKey with
  | none => simp [hf] at h
  | some p =>
    obtain ⟨val, has⟩ := p
    cases has with
    | false => simp [hf] at h
    | true =>
      simp only [hf, if_true] at h
      by_cases hlen : val.length = 0 ∨ 14 < val.length
      · rw [if_pos hlen] at h
        simp at h
      · rw [if_neg hlen] at h
        cases hp : parseHexUint64 val with
        | none => simp [hp] at h
        | some n =>
          simp only [hp, Option.some.injEq, Prod.mk.injEq, and_true] at h
          have hn : n < 16 ^ val.length := parseHexUint64_lt val n hp
          have hL : val.length ≤ 14 := by
            push_neg at hlen
            omega
          have hbound : n * 16 ^ (14 - val.length) < 16 ^ 14 := by
            calc n * 16 ^ (14 - val.length)
                < 16 ^ val.length * 16 ^ (14 - val.length) :=
                  Nat.mul_lt_mul_of_lt_of_le hn (Nat.le_refl _)
                    (Nat.pos_pow_of_pos _ (by norm_num))
              _ = 16 ^ (val.length + (14 - val.length)) := by rw [pow_add]
              _ = 16 ^ 14 := by congr 1; omega
          have h14 : (16 : Nat) ^ 14 = 2 ^ 56 := by norm_num

          rw [h14] at hbound
          constructor
          · rw [← h]
            exact_mod_cast Nat.zero_le _
          · rw [← h]
            exact_mod_cast hbound

theorem tracestateHasRandomness_range (otts : List Char) (v : Int)
    (h : tracestateHasRandomness otts = some (v, true)) : 0 ≤ v ∧ v < 2 ^ 56 := by
  unfold tracestateHasRandomness at h
  cases hf : tracestateHasOTelField otts randomnessSearchKey with
  | none => simp [hf] at h
  | some p =>
    obtain ⟨val, has⟩ := p
    cases has with
    | false => simp [hf] at h
    | true =>
      simp only [hf, if_true] at h
      by_cases hlen : val.length ≠ 14
      · simp [hlen] at h
      · rw [if_neg hlen] at h
        cases hp : parseHexUint64 val with
        | none => simp [hp] at h
        | some n =>
          simp only [hp, Option.some.injEq, Prod.mk.injEq, and_true] at h
          have hn : n < 16 ^ val.length := parseHexUint64_lt val n hp
          have hL : val.length = 14 := by omega
          rw [hL] at hn
          have h14 : (16 : Nat) ^ 14 = 2 ^ 56 := by norm_num
          rw [h14] at hn
          constructor
          · rw [← h]
            exact_mod_cast Nat.zero_le _
          · rw [← h]
            exact_mod_cast hn

theorem resolveRandomness_range (otts : List Char) (tid : Nat) (rnd : Int)
    (h : resolveRandomness otts tid = some rnd) : 0 ≤ rnd ∧ rnd < 2 ^ 56 := by
  have hmod : ((tid % 2 ^ 56 : Nat) : Int) < 2 ^ 56 := by
    exact_mod_cast Nat.mod_lt _ (show 0 < 2 ^ 56 by norm_num)
  unfold resolveRandomness at h
  by_cases he : otts ≠ []
  · rw [if_pos he] at h
    cases hr : tracestateHasRandomness otts with
    | none => simp [hr] at h
    | some p =>
      obtain ⟨r, has⟩ := p
      cases has with
      | false =>
        simp only [hr, Bool.false_eq_true, if_false, Option.some.injEq] at h
        rw [← h]
        exact ⟨by positivity, hmod⟩
      | true =>
        simp only [hr, if_true, Option.some.injEq] at h
        rw [← h]
        exact tracestateHasRandomness_range otts r hr
  · rw [if_neg he] at h
    simp only [Bool.false_eq_true, if_false, Option.some.injEq] at h
    rw [← h]
    exact ⟨by positivity, hmod⟩

theorem computeSampled_iff (t rnd : Int) (h0 : 0 ≤ rnd) (h1 : rnd < 2 ^ 56) :
    computeSampled t rnd = true ↔ t ≤ rnd := by
  unfold computeSampled NEVER_SAMPLE_THRESHOLD ALWAYS_SAMPLE_THRESHOLD
  split
  · rename_i ht
    simp only [Bool.false_eq_true, false_iff]
    omega
  · split
    · rename_i ht
      simp only [true_iff]
      omega
    · simp

theorem applyIntent_decision (ts : TraceState) (pt rnd : Int) (intent : SamplingIntent)
    (res : SamplingResult) (ac tc : Nat)
    (h : applyIntent ts pt rnd intent = some (res, ac, tc)) :
    res.Decision =
      (if computeSampled intent.Threshold rnd then SamplingDecision.RecordAndSample
       else if intent.Export then SamplingDecision.ExportOnly
       else if intent.Record then SamplingDecision.RecordOnly
       else SamplingDecision.Drop) := by
  unfold applyIntent at h
  split at h <;>
    (by_cases hs : computeSampled intent.Threshold rnd = true <;>
     by_cases hex : intent.Export = true <;>
     by_cases hrec : intent.Record = true <;>
     cases ha : intent.Attributes <;>
     simp_all <;>
     (try rw [← h.1]))

theorem combineLoopF_fuel (fuel1 : Nat) : ∀ (fuel2 : Nat) (inc out : List Char),
    inc.length < fuel1 → inc.length < fuel2 →
    combineLoopF fuel1 inc out = combineLoopF fuel2 inc out := by
  induction fuel1 with
  | zero =>
    intro fuel2 inc out h1 _
    omega
  | succ f1 ih =>
    intro fuel2 inc out h1 h2
    cases fuel2 with
    | zero => omega
    | succ f2 =>
      by_cases he : inc = []
      · simp [combineLoopF, he]
      · have hpos : 0 < inc.length := List.length_pos.mpr he
        simp only [combineLoopF]
        rw [if_neg he, if_neg he]
        cases hc : inc.findIdx? (· == ':') with
        | none => rfl
        | some cpos =>
          dsimp only
          cases hs : (inc.drop (cpos + 1)).findIdx? (· == ';') with
          | none => rfl
          | some spos =>
            dsimp only
            have hd : (inc.drop (cpos + spos + 1 + 1)).length < f1 ∧
                (inc.drop (cpos + spos + 1 + 1)).length < f2 := by
              simp only [List.length_drop]
              omega
            by_cases hk : inc.take cpos = ['t', 'h']
            · rw [if_pos hk, if_pos hk]
              exact ih f2 _ _ hd.1 hd.2
            · rw [if_neg hk, if_neg hk]
              by_cases ho : out.length ≠ 0
              · rw [if_pos ho, if_pos ho]
                exact ih f2 _ _ hd.1 hd.2
              · rw [if_neg ho, if_neg ho]
                exact ih f2 _ _ hd.1 hd.2

/-- With any fuel exceeding the input length the copy loop computes the
same result as `combineLoop` (each iteration consumes at least two
characters, so the default fuel `length + 1` never runs out): a `none`
(corrupt) result of `combineLoop` is exactly the source loop's
`cpos < 0` exit, never a fuel artifact. -/
theorem combineLoop_eq_of_fuel (fuel : Nat) (inc out : List Char)
    (h : inc.length < fuel) : combineLoopF fuel inc out = combineLoop inc out :=
  combineLoopF_fuel fuel (inc.length + 1) inc out h (Nat.lt_succ_self _)

theorem delete_get_eq_nil (ts : TraceState) (k : List Char) :
    (ts.delete k).get k = [] := by
  unfold TraceState.delete TraceState.get
  have : (ts.entries.filter (fun e => !(e.1 == k))).find? (fun e => e.1 == k) = none := by
    induction ts.entries with
    | nil => simp
    | cons e rest ih =>
      by_cases hk : (e.1 == k) = true
      · simp [List.filter_cons, hk, ih]
      · simp only [Bool.not_eq_true] at hk
        simp [List.filter_cons, hk, List.find?, ih]
  simp [this]

theorem get_ne_nil_entries (ts : TraceState) (k : List Char) (h : ts.get k ≠ []) :
    ts.len ≠ 0 := by
  intro hlen
  unfold TraceState.len at hlen
  unfold TraceState.get at h
  have : ts.entries = [] := List.length_eq_zero.mp hlen
  rw [this] at h
  simp [List.find?] at h

/-! ## The claims -/

/-- C10: whenever `tracestateHasThreshold` or `tracestateHasRandomness`
reports found = true, the parsed value lies in `[0, 2^56)` — so it can
neither equal the negative invalid sentinel nor reach the never-sample
sentinel `2^56` — because of the 1-to-14 (respectively exactly-14)
hex-digit length checks performed before conversion. -/
theorem claim10_parsed_values_in_range (otts : List Char) (v : Int)
    (h : tracestateHasThreshold otts = some (v, true) ∨
         tracestateHasRandomness otts = some (v, true)) :
    0 ≤ v ∧ v < 2 ^ 56 ∧ v ≠ INVALID_THRESHOLD ∧ v ≠ NEVER_SAMPLE_THRESHOLD := by
  have hr : 0 ≤ v ∧ v < 2 ^ 56 := by
    cases h with
    | inl h => exact tracestateHasThreshold_range otts v h
    | inr h => exact tracestateHasRandomness_range otts v h
  refine ⟨hr.1, hr.2, ?_, ?_⟩
  · unfold INVALID_THRESHOLD
    omega
  · unfold NEVER_SAMPLE_THRESHOLD
    intro hv
    rw [hv] at hr
    exact absurd hr.2 (lt_irrefl _)

theorem claim10_witness :
    0 ≤ (36028797018963968 : Int) ∧ (36028797018963968 : Int) < 2 ^ 56 ∧
      (36028797018963968 : Int) ≠ INVALID_THRESHOLD ∧
      (36028797018963968 : Int) ≠ NEVER_SAMPLE_THRESHOLD :=
  claim10_parsed_values_in_range (['t', 'h', ':', '8']) 36028797018963968
    (Or.inl (by decide))

/-- C9: `SamplingIntent.WouldSample` selects by the strict comparison
`T < R` while the Composite Adapter's authoritative `sampled` switch
selects by `T ≤ R`; in the exact-equality case `T = R` the adapter
selects the span but `WouldSample` reports false. -/
theorem claim9_would_sample_strict (intent : SamplingIntent) (rnd : Int)
    (h0 : 0 ≤ rnd) (h1 : rnd < 2 ^ 56) :
    (intent.WouldSample rnd = true ↔ intent.Threshold < rnd) ∧
    (computeSampled intent.Threshold rnd = true ↔ intent.Threshold ≤ rnd) ∧
    (intent.Threshold = rnd →
      computeSampled intent.Threshold rnd = true ∧ intent.WouldSample rnd = false) := by
  refine ⟨by simp [SamplingIntent.WouldSample], computeSampled_iff _ _ h0 h1, ?_⟩
  intro heq
  constructor
  · exact (computeSampled_iff _ _ h0 h1).mpr (le_of_eq heq)
  · simp [SamplingIntent.WouldSample, heq]

theorem claim9_witness :
    ((⟨false, false, 5, none, none⟩ : SamplingIntent).WouldSample 5 = true ↔
      (⟨false, false, 5, none, none⟩ : SamplingIntent).Threshold < 5) ∧
    (computeSampled (⟨false, false, 5, none, none⟩ : SamplingIntent).Threshold 5 = true ↔
      (⟨false, false, 5, none, none⟩ : SamplingIntent).Threshold ≤ 5) ∧
    ((⟨false, false, 5, none, none⟩ : SamplingIntent).Threshold = 5 →
      computeSampled (⟨false, false, 5, none, none⟩ : SamplingIntent).Threshold 5 = true ∧
      (⟨false, false, 5, none, none⟩ : SamplingIntent).WouldSample 5 = false) :=
  claim9_would_sample_strict ⟨false, false, 5, none, none⟩ 5 (by norm_num) (by norm_num)

/-- C7: the inherited parent threshold resolved by `ShouldSample` (and
passed to the composable sampler tree, where `ParentThreshold` reads it)
follows this order: the parsed value of the parent fragment's `th`
sub-field when present and well-formed; otherwise the invalid/unknown
sentinel when the parent span context's sampled flag is set; otherwise
the never-sample sentinel. -/
theorem claim7_parent_threshold_resolution (params : SamplingParameters)
    (t : Int) (found : Bool)
    (hp : tracestateHasThreshold (params.parentSpanContext.traceState.get otKey) =
      some (t, found)) :
    resolveParentThreshold (params.parentSpanContext.traceState.get otKey)
        params.parentSpanContext.sampled =
      some (if found then t
            else if params.parentSpanContext.sampled then INVALID_THRESHOLD
            else NEVER_SAMPLE_THRESHOLD) := by
  simp [resolveParentThreshold, hp]

theorem claim7_witness :
    resolveParentThreshold
        (((⟨⟨⟨[(otKey, ['t', 'h', ':', '8'])]⟩, false⟩, 0⟩ :
            SamplingParameters).parentSpanContext.traceState).get otKey)
        ((⟨⟨⟨[(otKey, ['t', 'h', ':', '8'])]⟩, false⟩, 0⟩ :
            SamplingParameters).parentSpanContext.sampled) =
      some (if true then (36028797018963968 : Int)
            else if ((⟨⟨⟨[(otKey, ['t', 'h', ':', '8'])]⟩, false⟩, 0⟩ :
                SamplingParameters).parentSpanContext.sampled) then INVALID_THRESHOLD
            else NEVER_SAMPLE_THRESHOLD) :=
  claim7_parent_threshold_resolution ⟨⟨⟨[(otKey, ['t', 'h', ':', '8'])]⟩, false⟩, 0⟩
    36028797018963968 true (by decide)

/-- C1: on every completed `ShouldSample` call, with `T` the intent
threshold returned by the configured composable sampler and `R` the
call's randomness, the span is selected iff `T ≤ R`; the never sentinel
`2^56` never selects (for the actual randomness range) and the always
sentinel `0` always selects; and the final decision is `RecordAndSample`
when selected, else `ExportOnly` when the intent's `Export` is set, else
`RecordOnly` when `Record` is set, else `Drop`. -/
theorem claim1_decision_rule (c : Int → Int → SamplingIntent)
    (params : SamplingParameters) (res : SamplingResult) (ac tc : Nat)
    (h : shouldSample c params = some (res, ac, tc)) :
    ∃ pt rnd,
      resolveParentThreshold (params.parentSpanContext.traceState.get otKey)
        params.parentSpanContext.sampled = some pt ∧
      resolveRandomness (params.parentSpanContext.traceState.get otKey)
        params.traceIdLow64 = some rnd ∧
      0 ≤ rnd ∧ rnd < 2 ^ 56 ∧
      (computeSampled (c pt rnd).Threshold rnd = true ↔ (c pt rnd).Threshold ≤ rnd) ∧
      computeSampled NEVER_SAMPLE_THRESHOLD rnd = false ∧
      computeSampled ALWAYS_SAMPLE_THRESHOLD rnd = true ∧
      res.Decision =
        (if (c pt rnd).Threshold ≤ rnd then SamplingDecision.RecordAndSample
         else if (c pt rnd).Export then SamplingDecision.ExportOnly
         else if (c pt rnd).Record then SamplingDecision.RecordOnly
         else SamplingDecision.Drop) := by
  unfold shouldSample at h
  cases hpt : resolveParentThreshold (params.parentSpanContext.traceState.get otKey)
      params.parentSpanContext.sampled with
  | none => simp [hpt] at h
  | some pt =>
    cases hrnd : resolveRandomness (params.parentSpanContext.traceState.get otKey)
        params.traceIdLow64 with
    | none => simp [hpt, hrnd] at h
    | some rnd =>
      simp only [hpt, hrnd] at h
      obtain ⟨hr0, hr1⟩ := resolveRandomness_range _ _ _ hrnd
      refine ⟨pt, rnd, rfl, rfl, hr0, hr1, computeSampled_iff _ _ hr0 hr1, ?_, ?_, ?_⟩
      · unfold computeSampled
        simp
      · unfold computeSampled NEVER_SAMPLE_THRESHOLD ALWAYS_SAMPLE_THRESHOLD
        norm_num
      · have hd := applyIntent_decision _ _ _ _ _ _ _ h
        rw [hd]
        by_cases hle : (c pt rnd).Threshold ≤ rnd
        · rw [if_pos ((computeSampled_iff _ _ hr0 hr1).mpr hle), if_pos hle]
        · rw [if_neg (fun hc => hle ((computeSampled_iff _ _ hr0 hr1).mp hc)),
              if_neg hle]

theorem claim1_witness :
    ∃ pt rnd,
      resolveParentThreshold
        (((⟨⟨⟨[]⟩, false⟩, 0⟩ : SamplingParameters).parentSpanContext.traceState).get otKey)
        ((⟨⟨⟨[]⟩, false⟩, 0⟩ : SamplingParameters).parentSpanContext.sampled) = some pt ∧
      resolveRandomness
        (((⟨⟨⟨[]⟩, false⟩, 0⟩ : SamplingParameters).parentSpanContext.traceState).get otKey)
        ((⟨⟨⟨[]⟩, false⟩, 0⟩ : SamplingParameters).traceIdLow64) = some rnd ∧
      0 ≤ rnd ∧ rnd < 2 ^ 56 ∧
      (computeSampled ((fun _ _ => (⟨false, false, 0, none, none⟩ : SamplingIntent)) pt rnd).Threshold rnd = true ↔
        ((fun _ _ => (⟨false, false, 0, none, none⟩ : SamplingIntent)) pt rnd).Threshold ≤ rnd) ∧
      computeSampled NEVER_SAMPLE_THRESHOLD rnd = false ∧
      computeSampled ALWAYS_SAMPLE_THRESHOLD rnd = true ∧
      (⟨SamplingDecision.RecordAndSample, [],
        ⟨[(otKey, ['t', 'h', ':', '0'])]⟩⟩ : SamplingResult).Decision =
        (if ((fun _ _ => (⟨false, false, 0, none, none⟩ : SamplingIntent)) pt rnd).Threshold ≤ rnd
         then SamplingDecision.RecordAndSample
         else if ((fun _ _ => (⟨false, false, 0, none, none⟩ : SamplingIntent)) pt rnd).Export
         then SamplingDecision.ExportOnly
         else if ((fun _ _ => (⟨false, false, 0, none, none⟩ : SamplingIntent)) pt rnd).Record
         then SamplingDecision.RecordOnly
         else SamplingDecision.Drop) :=
  claim1_decision_rule (fun _ _ => ⟨false, false, 0, none, none⟩) ⟨⟨⟨[]⟩, false⟩, 0⟩
    ⟨SamplingDecision.RecordAndSample, [], ⟨[(otKey, ['t', 'h', ':', '0'])]⟩⟩ 0 0
    (by decide)

/-- C2: evaluation of the code at the failing input `T = 1`.  The rewrite
encodes the threshold with `strconv.FormatUint`, which drops leading
zeros, so the fragment written for `T = 1` is `th:1`; the parser treats
the value as the most-significant hex digits and right-pads with zero
bits, recovering `1 * 16^13 = 2^52`, not `1`.  The claimed round trip
`parse (rewrite T) = T` therefore fails for every `T` in `(0, 16^13)`. -/
theorem claim2_roundtrip_fails_for_small_threshold :
    (combineTracestate ⟨[]⟩ 1).1.get otKey = ['t', 'h', ':', '1'] ∧
    tracestateHasThreshold ((combineTracestate ⟨[]⟩ 1).1.get otKey) =
      some (4503599627370496, true) ∧
    (4503599627370496 : Int) ≠ 1 := by
  decide

/-- C3: evaluation of the code at the failing input.  For an intent with
`Record = true`, `Export = false`, a non-selecting threshold and a nil
`Attributes` producer, `ShouldSample` reaches the `RecordOnly` branch and
calls `intent.Attributes()` without the nil guard present in the other
branches, i.e. it panics (modelled by `none`) instead of completing. -/
theorem claim3_record_only_nil_attributes_panics :
    shouldSample
      (fun _ _ => ⟨true, false, NEVER_SAMPLE_THRESHOLD, none, none⟩)
      ⟨⟨⟨[]⟩, false⟩, 0⟩ = none := by
  decide

/-- C4: evaluation of the code at the failing input of the claim's own
example.  On the fragment `rv:00112233445566;th:8` with key `rv`, the
lookup returns only the first 11 characters of the 14-digit value,
because the index of the terminating `;` is computed relative to
`otts[low:]` but used as an absolute slice bound. -/
theorem claim4_field_value_truncated :
    tracestateHasOTelField
      ("rv:00112233445566;th:8".toList) randomnessSearchKey =
      some ("00112233445".toList, true) ∧
    ("00112233445".toList : List Char) ≠ "00112233445566".toList := by
  decide

/-- C5 counterexample: a trace-state whose `ot` fragment has no `:` is
corrupt; `combineTracestate` with the valid new threshold `2^55` deletes
the `ot` entry entirely (emitting the diagnostic, the `true` flag) and
does not write the new `th` field, so the returned trace-state carries no
threshold — contradicting the claim that it is replaced by only the new
`th` field. -/
theorem claim5_counterexample :
    combineTracestate ⟨[(otKey, "nocolon".toList)]⟩ (2 ^ 55) = (⟨[]⟩, true) ∧
    tracestateHasThreshold ((⟨[]⟩ : TraceState).get otKey) = some (0, false) := by
  decide

/-- C5 (amended): whenever the copy loop of `combineTracestate` detects
the existing `ot` fragment as structurally unparsable — at some
iteration the remaining unconsumed part of the fragment is nonempty and
contains no `:` at all, the source's `cpos < 0` exit (this covers
corruption in any later pair, e.g. `xx:yy;bad`) — the rewrite with a
valid new threshold discards the corrupt fragment wholesale by deleting
the vendor entry: it does NOT write the new `th` field, so the returned
trace-state carries no threshold, and the diagnostic hook is invoked
(the `true` flag).  By `combineLoop_eq_of_fuel` the hypothesis is
fuel-independent, i.e. exactly the source loop's corrupt exit.  (A
colon-less key that is followed by `;` and a later `:`, such as
`bad;xx:yy`, is not detected: the loop reads through the later colon.) -/
theorem claim5_amended_corrupt_deletes_ot (original : TraceState) (t : Int)
    (h0 : 0 ≤ t)
    (hc : combineLoop (original.get otKey) [] = none) :
    combineTracestate original t = (original.delete otKey, true) ∧
    tracestateHasThreshold ((original.delete otKey).get otKey) = some (0, false) := by
  have hne : original.get otKey ≠ [] := by
    intro he
    rw [he] at hc
    exact absurd hc (by decide)
  have hlen : original.len ≠ 0 := get_ne_nil_entries original otKey hne
  have hg : (original.delete otKey).get otKey = [] := delete_get_eq_nil original otKey
  constructor
  · unfold combineTracestate
    rw [if_neg (fun hand => hlen hand.1), hc]
  · rw [hg]
    decide

theorem claim5_witness :
    0 ≤ (2 ^ 55 : Int) ∧
    (combineTracestate ⟨[(otKey, "xx:yy;bad".toList)]⟩ (2 ^ 55) =
      ((⟨[(otKey, "xx:yy;bad".toList)]⟩ : TraceState).delete otKey, true) ∧
    tracestateHasThreshold
      (((⟨[(otKey, "xx:yy;bad".toList)]⟩ : TraceState).delete otKey).get otKey) =
      some (0, false)) :=
  ⟨by norm_num,
   claim5_amended_corrupt_deletes_ot ⟨[(otKey, "xx:yy;bad".toList)]⟩ (2 ^ 55)
     (by norm_num) (by decide)⟩

/-- C6 counterexample: a call whose final decision is `Drop` but whose
intent carries a `TraceState` producer invokes that producer once (the
third component of the result counts its invocations), because the
source selects `returnTracestate` before the decision switch.  This
contradicts the claim that on a `Drop` decision neither producer is
invoked. -/
theorem claim6_counterexample :
    shouldSample
      (fun _ _ => ⟨false, false, NEVER_SAMPLE_THRESHOLD, none,
        some ⟨[(['x', 'x'], ['y', 'y'])]⟩⟩)
      ⟨⟨⟨[]⟩, false⟩, 0⟩ =
      some (⟨SamplingDecision.Drop, [], ⟨[(['x', 'x'], ['y', 'y'])]⟩⟩, 0, 1) := by
  decide

/-- C6 (amended): on every completed decision, each producer is invoked
at most once; the `Attributes` producer is invoked only in branches that
need it — never on `Drop`, and never when it is nil — but the
`TraceState` producer is invoked exactly once whenever it is set,
regardless of the decision taken (even on `Drop`), because the returned
result always carries a trace-state. -/
theorem claim6_amended_producer_invocations (ts : TraceState) (pt rnd : Int)
    (intent : SamplingIntent) (res : SamplingResult) (ac tc : Nat)
    (h : applyIntent ts pt rnd intent = some (res, ac, tc)) :
    ac ≤ 1 ∧
    tc = (if intent.TraceState.isSome then 1 else 0) ∧
    (res.Decision = SamplingDecision.Drop → ac = 0) ∧
    (intent.Attributes = none → ac = 0) := by
  unfold applyIntent at h
  split at h <;> rename_i hts
  all_goals (
    by_cases hs : computeSampled intent.Threshold rnd = true
    · rw [if_pos hs] at h
      cases ha : intent.Attributes with
      | none =>
        simp only [ha, Option.some.injEq, Prod.mk.injEq] at h
        obtain ⟨h1, h2, h3⟩ := h
        subst h1
        subst h2
        subst h3
        simp [hts, ha]
      | some a =>
        simp only [ha, Option.some.injEq, Prod.mk.injEq] at h
        obtain ⟨h1, h2, h3⟩ := h
        subst h1
        subst h2
        subst h3
        simp [hts, ha]
    · rw [if_neg hs] at h
      by_cases hex : intent.Export = true
      · rw [if_pos hex] at h
        cases ha : intent.Attributes with
        | none =>
          simp only [ha, Option.some.injEq, Prod.mk.injEq] at h
          obtain ⟨h1, h2, h3⟩ := h
          subst h1
          subst h2
          subst h3
          simp [hts, ha]
        | some a =>
          simp only [ha, Option.some.injEq, Prod.mk.injEq] at h
          obtain ⟨h1, h2, h3⟩ := h
          subst h1
          subst h2
          subst h3
          simp [hts, ha]
      · rw [if_neg hex] at h
        by_cases hrec : intent.Record = true
        · rw [if_pos hrec] at h
          cases ha : intent.Attributes with
          | none => simp [ha] at h
          | some a =>
            simp only [ha, Option.some.injEq, Prod.mk.injEq] at h
            obtain ⟨h1, h2, h3⟩ := h
            subst h1
            subst h2
            subst h3
            simp [hts, ha]
        · rw [if_neg hrec] at h
          simp only [Option.some.injEq, Prod.mk.injEq] at h
          obtain ⟨h1, h2, h3⟩ := h
          subst h1
          subst h2
          subst h3
          simp [hts])

theorem claim6_witness :
    (0 : Nat) ≤ 1 ∧
    (1 : Nat) = (if (some (⟨[(['x', 'x'], ['y', 'y'])]⟩ : TraceState)).isSome then 1 else 0) ∧
    ((⟨SamplingDecision.Drop, [], ⟨[(['x', 'x'], ['y', 'y'])]⟩⟩ : SamplingResult).Decision =
      SamplingDecision.Drop → (0 : Nat) = 0) ∧
    ((none : Option (List KeyValue)) = none → (0 : Nat) = 0) :=
  claim6_amended_producer_invocations ⟨[]⟩ (2 ^ 56) 0
    ⟨false, false, 2 ^ 56, none, some ⟨[(['x', 'x'], ['y', 'y'])]⟩⟩
    ⟨SamplingDecision.Drop, [], ⟨[(['x', 'x'], ['y', 'y'])]⟩⟩ 0 1
    (by decide)

/-- C8 counterexample: a call whose intent threshold equals the inherited
threshold but whose intent carries a `TraceState` producer returns that
producer's output, not the original parent trace-state (here the parent
trace-state is empty and the result is not) — contradicting the claim
that the original parent trace-state is returned byte-identically
whenever the effective threshold equals the inherited one. -/
theorem claim8_counterexample :
    shouldSample
      (fun pt _ => ⟨false, false, pt, none, some ⟨[(['x', 'x'], ['y', 'y'])]⟩⟩)
      ⟨⟨⟨[]⟩, false⟩, 0⟩ =
      some (⟨SamplingDecision.Drop, [], ⟨[(['x', 'x'], ['y', 'y'])]⟩⟩, 0, 1) ∧
    (⟨[(['x', 'x'], ['y', 'y'])]⟩ : TraceState) ≠ (⟨[]⟩ : TraceState) := by
  decide

/-- C8 (amended): when the intent's effective threshold equals the
inherited threshold, no rewrite with the new threshold is performed: the
returned trace-state is the intent's `TraceState` producer output when
one is set, and the original parent trace-state unchanged otherwise.
(The rewrite happens only in the selected/export branches and only when
the thresholds differ.) -/
theorem claim8_amended_no_rewrite_on_equal_threshold (ts : TraceState)
    (pt rnd : Int) (intent : SamplingIntent) (res : SamplingResult) (ac tc : Nat)
    (h : applyIntent ts pt rnd intent = some (res, ac, tc))
    (heq : intent.Threshold = pt) :
    res.Tracestate = (match intent.TraceState with | some t => t | none => ts) := by
  unfold applyIntent at h
  split at h <;> rename_i hts
  all_goals (
    by_cases hs : computeSampled intent.Threshold rnd = true
    · rw [if_pos hs] at h
      simp only [Option.some.injEq, Prod.mk.injEq] at h
      obtain ⟨h1, -, -⟩ := h
      subst h1
      simp [hts, heq]
    · rw [if_neg hs] at h
      by_cases hex : intent.Export = true
      · rw [if_pos hex] at h
        simp only [Option.some.injEq, Prod.mk.injEq] at h
        obtain ⟨h1, -, -⟩ := h
        subst h1
        simp [hts, heq]
      · rw [if_neg hex] at h
        by_cases hrec : intent.Record = true
        · rw [if_pos hrec] at h
          cases ha : intent.Attributes with
          | none => simp [ha] at h
          | some a =>
            simp only [ha, Option.some.injEq, Prod.mk.injEq] at h
            obtain ⟨h1, -, -⟩ := h
            subst h1
            simp [hts]
        · rw [if_neg hrec] at h
          simp only [Option.some.injEq, Prod.mk.injEq] at h
          obtain ⟨h1, -, -⟩ := h
          subst h1
          simp [hts])

theorem claim8_witness :
    (⟨SamplingDecision.Drop, [], ⟨[(['x', 'x'], ['y', 'y'])]⟩⟩ : SamplingResult).Tracestate =
      (match (some (⟨[(['x', 'x'], ['y', 'y'])]⟩ : TraceState)) with
       | some t => t
       | none => (⟨[]⟩ : TraceState)) :=
  claim8_amended_no_rewrite_on_equal_threshold ⟨[]⟩ (2 ^ 56) 0
    ⟨false, false, 2 ^ 56, none, some ⟨[(['x', 'x'], ['y', 'y'])]⟩⟩
    ⟨SamplingDecision.Drop, [], ⟨[(['x', 'x'], ['y', 'y'])]⟩⟩ 0 1
    (by decide) (by decide)

end GoSampler
